import Mathlib

/-!
Shallow embedding of the student-promotion routes of the
college-management backend (src/routes/studentpromotion.routes.js).

The HTTP layer is modelled away: each route handler becomes a pure
function from the request data and the database state to a response
value and the (possibly updated) database state.  JSON scalar fields of
the request body are modelled as optional strings (JavaScript's
`parseInt` stringifies its argument before parsing, so this loses no
behaviour relevant to the routes).  The PostgreSQL stored functions and
views called by the routes are not part of the repository source; they
are modelled from the specification and marked as such.
-/

namespace CollegeMgmt

/-- A row of the `students` table (the Student Directory).  Fields not
read by the promotion routes are omitted. -/
structure Student where
  student_id : Nat
  username : String
  course_id : Int
  academic_course_year_id : Int
deriving DecidableEq, Repr

/-- A promotion record as produced by `insert_student_promotion` and
surfaced by the history / point-lookup queries. -/
structure PromotionRecord where
  promotion_id : Nat
  student_id : Nat
  course_id : Int
  from_year : Int
  to_year : Int
  created_at : Nat
deriving DecidableEq, Repr

/-- The database state visible to the promotion routes: the students
table, the append-only promotions table, the sequence backing
`promotion_id`, and a logical clock backing `created_at`. -/
structure DB where
  students : List Student
  promotions : List PromotionRecord
  nextPromotionId : Nat
  now : Nat
deriving DecidableEq, Repr

/-- One element of the `students` array of the POST /promotions body.
A missing field is `none`; JSON scalars are carried as strings. -/
structure RawStudent where
  username : Option String
  courseId : Option String
  academicCourseYearId : Option String
deriving DecidableEq, Repr

/-- JavaScript `parseInt(s, 10)`: skip leading whitespace, take an
optional sign and then the longest prefix of decimal digits; `none`
(NaN) when no digit follows.  Trailing garbage such as "abc" in "2abc"
or ".9" in "3.9" is ignored. -/
def parseIntJS (s : Option String) : Option Int :=
  match s with
  | none => none
  | some str =>
    let cs := str.toList.dropWhile fun c => c = ' ' ∨ c = '\t' ∨ c = '\n' ∨ c = '\r'
    let core : List Char → Option Nat := fun l =>
      let ds := l.takeWhile Char.isDigit
      if ds.isEmpty then none
      else some (ds.foldl (fun a c => a * 10 + (c.toNat - 48)) 0)
    match cs with
    | '-' :: rest => (core rest).map fun n => -(n : Int)
    | '+' :: rest => (core rest).map fun n => (n : Int)
    | _ => (core cs).map fun n => (n : Int)

/-- Lines 62–71 of the route: destructure the item, `parseInt` the two
id fields, and reject when the username is missing/empty or either
parse is NaN.  Returns the username and the two coerced integers. -/
def parseItem (raw : RawStudent) : Option (String × Int × Int) :=
  match raw.username, parseIntJS raw.courseId, parseIntJS raw.academicCourseYearId with
  | some u, some c, some y => if u = "" then none else some (u, c, y)
  | _, _, _ => none

/-- Lines 74–77: `SELECT student_id FROM students WHERE username = $1`,
first matching row. -/
def findStudent (db : DB) (u : String) : Option Student :=
  db.students.find? fun s => s.username == u

/-- Modelled from the spec: the PostgreSQL stored function
`insert_student_promotion(student_id, course_id, academic_course_year_id)`
is not in the repository source.  Per §4.1 step 3 it creates a
PromotionRecord with `from_year` the student's current
`academic_course_year_id` and `to_year` the target year, updates the
student's `academic_course_year_id` to the target year, and returns the
fresh monotonic `promotion_id`. -/
def insert_student_promotion (db : DB) (sid : Nat) (c y : Int) : Nat × DB :=
  let fromY : Int :=
    match db.students.find? (fun s => s.student_id == sid) with
    | some s => s.academic_course_year_id
    | none => 0
  let rec0 : PromotionRecord :=
    { promotion_id := db.nextPromotionId, student_id := sid, course_id := c
      from_year := fromY, to_year := y, created_at := db.now }
  (db.nextPromotionId,
    { students := db.students.map fun s =>
        if s.student_id == sid then { s with academic_course_year_id := y } else s
      promotions := db.promotions ++ [rec0]
      nextPromotionId := db.nextPromotionId + 1
      now := db.now + 1 })

/-- The JSON responses the POST /promotions handler can send.  Error
responses carry only `success:false` and a message — no promotion ids. -/
inductive PromoteResponse where
  | badRequest (message : String)
  | notFound (message : String)
  | serverError (message : String)
  | created (message : String) (promotionIds : List Nat)
deriving DecidableEq, Repr

/-- The per-item loop of lines 61–99.  `i` is the item index (used to
consult `failMsg`, the environment telling which insert calls throw and
with what message), `acc` the promotion ids collected so far.  An early
`return` of the JavaScript code becomes `.error (response, db)`;
finishing the loop yields `.ok (acc, db)`. -/
def promoteLoop (failMsg : Nat → Option String) :
    Nat → List Nat → DB → List RawStudent →
    Except (PromoteResponse × DB) (List Nat × DB)
  | _, acc, db, [] => .ok (acc, db)
  | i, acc, db, raw :: rest =>
    match parseItem raw with
    | none => .error (.badRequest "⚠️ Missing or invalid course/year selection.", db)
    | some (u, c, y) =>
      match findStudent db u with
      | none => .error (.notFound ("⚠️ No student found with username: " ++ u), db)
      | some s =>
        match failMsg i with
        | some m => .error (.serverError m, db)
        | none =>
          let r := insert_student_promotion db s.student_id c y
          let acc' := if r.1 ≠ 0 then acc ++ [r.1] else acc
          promoteLoop failMsg (i + 1) acc' r.2 rest

/-- The POST /promotions handler (lines 51–111).  `students?` is the
`students` field of the body (`none` when absent).  Returns the JSON
response and the database state after the call. -/
def promoteBatch (failMsg : Nat → Option String) (db : DB)
    (students? : Option (List RawStudent)) : PromoteResponse × DB :=
  match students? with
  | none => (.badRequest "⚠️ At least one student must be provided.", db)
  | some students =>
    if students.isEmpty then
      (.badRequest "⚠️ At least one student must be provided.", db)
    else
      match promoteLoop failMsg 0 [] db students with
      | .error e => e
      | .ok (ids, db') =>
        if ids.isEmpty then (.badRequest "⚠️ No valid promotions were added.", db')
        else (.created ("✅ " ++ toString ids.length ++ " student(s) promoted successfully!") ids, db')

/-- Modelled from the spec: the view `public.promotion_history` is not
in the repository source.  It exposes each promotion record joined with
its student's username, so filtering by username yields the student's
promotion records. -/
def promotion_history_rows (db : DB) (u : String) : List PromotionRecord :=
  db.promotions.filter fun r =>
    match db.students.find? (fun s => s.student_id == r.student_id) with
    | some s => s.username == u
    | none => false

/-- Ordering used by `ORDER BY created_at DESC`. -/
def createdDesc (a b : PromotionRecord) : Prop := b.created_at ≤ a.created_at

instance : DecidableRel createdDesc := fun a b => by
  unfold createdDesc; infer_instance

instance : IsTotal PromotionRecord createdDesc :=
  ⟨fun a b => le_total b.created_at a.created_at⟩

instance : IsTrans PromotionRecord createdDesc :=
  ⟨fun _ _ _ h1 h2 => le_trans h2 h1⟩

/-- Responses of GET /promotion-history/:username. -/
inductive HistoryResponse where
  | notFound (message : String)
  | ok (history : List PromotionRecord)
deriving DecidableEq, Repr

/-- The GET /promotion-history/:username handler (lines 139–156):
select the rows for the username ordered by `created_at` descending,
404 when there are none, 200 with the rows otherwise. -/
def getPromotionHistory (db : DB) (u : String) : HistoryResponse :=
  let rows := List.insertionSort createdDesc (promotion_history_rows db u)
  if rows.isEmpty then .notFound "⚠️ No promotion history found for this student."
  else .ok rows

/-- Modelled from the spec: the PostgreSQL stored function
`get_promotion_by_id(promotion_id)` is not in the repository source.
Per §4.4 it is a point lookup of the promotion record with that id. -/
def get_promotion_by_id (db : DB) (id : Nat) : Option PromotionRecord :=
  db.promotions.find? fun r => r.promotion_id == id

/-- Responses of GET /promotions/:promotionId. -/
inductive ByIdResponse where
  | notFound (message : String)
  | ok (promotion : PromotionRecord)
deriving DecidableEq, Repr

/-- The GET /promotions/:promotionId handler (lines 215–229). -/
def getPromotionById (db : DB) (id : Nat) : ByIdResponse :=
  match get_promotion_by_id db id with
  | none => .notFound "Promotion not found"
  | some r => .ok r

/-! ### Helper lemmas -/

/-- Looking a student up by username after an insert finds the same row
(possibly with its year updated): the stored function never changes a
username. -/
lemma findStudent_insert (db : DB) (sid : Nat) (c y : Int) (u : String) :
    findStudent (insert_student_promotion db sid c y).2 u
      = Option.map
          (fun s : Student =>
            if s.student_id == sid then { s with academic_course_year_id := y } else s)
          (findStudent db u) := by
  have hp : ((fun s : Student => s.username == u) ∘
        (fun s : Student =>
          if s.student_id == sid then { s with academic_course_year_id := y } else s))
      = fun s : Student => s.username == u := by
    funext s
    by_cases h : s.student_id = sid <;> simp [h, Function.comp]
  show List.find? (fun s : Student => s.username == u)
      (db.students.map fun s : Student =>
        if s.student_id == sid then { s with academic_course_year_id := y } else s)
    = Option.map _ (List.find? (fun s : Student => s.username == u) db.students)
  rw [List.find?_map, hp]

lemma findStudent_insert_isSome (db : DB) (sid : Nat) (c y : Int) (u : String) :
    (findStudent (insert_student_promotion db sid c y).2 u).isSome
      = (findStudent db u).isSome := by
  rw [findStudent_insert]
  cases findStudent db u <;> rfl

lemma findStudent_insert_none (db : DB) (sid : Nat) (c y : Int) (u : String) :
    findStudent (insert_student_promotion db sid c y).2 u = none
      ↔ findStudent db u = none := by
  rw [findStudent_insert]
  cases findStudent db u <;> simp

lemma insert_promotions (db : DB) (sid : Nat) (c y : Int) :
    ∃ r, (insert_student_promotion db sid c y).2.promotions = db.promotions ++ [r] :=
  ⟨_, rfl⟩

lemma insert_nextPromotionId (db : DB) (sid : Nat) (c y : Int) :
    (insert_student_promotion db sid c y).2.nextPromotionId = db.nextPromotionId + 1 :=
  rfl

lemma insert_fst (db : DB) (sid : Nat) (c y : Int) :
    (insert_student_promotion db sid c y).1 = db.nextPromotionId :=
  rfl

lemma promoteLoop_nil (failMsg : Nat → Option String) (i : Nat) (acc : List Nat) (db : DB) :
    promoteLoop failMsg i acc db [] = .ok (acc, db) :=
  rfl

lemma promoteLoop_cons_badParse (failMsg : Nat → Option String) (i : Nat) (acc : List Nat)
    (db : DB) (raw : RawStudent) (rest : List RawStudent)
    (hp : parseItem raw = none) :
    promoteLoop failMsg i acc db (raw :: rest)
      = .error (.badRequest "⚠️ Missing or invalid course/year selection.", db) := by
  simp [promoteLoop, hp]

lemma promoteLoop_cons_noStudent (failMsg : Nat → Option String) (i : Nat) (acc : List Nat)
    (db : DB) (raw : RawStudent) (rest : List RawStudent) (u : String) (c y : Int)
    (hp : parseItem raw = some (u, c, y)) (hf : findStudent db u = none) :
    promoteLoop failMsg i acc db (raw :: rest)
      = .error (.notFound ("⚠️ No student found with username: " ++ u), db) := by
  simp [promoteLoop, hp, hf]

lemma promoteLoop_cons_fail (failMsg : Nat → Option String) (i : Nat) (acc : List Nat)
    (db : DB) (raw : RawStudent) (rest : List RawStudent) (u : String) (c y : Int)
    (s : Student) (m : String)
    (hp : parseItem raw = some (u, c, y)) (hf : findStudent db u = some s)
    (hm : failMsg i = some m) :
    promoteLoop failMsg i acc db (raw :: rest) = .error (.serverError m, db) := by
  simp [promoteLoop, hp, hf, hm]

lemma promoteLoop_cons_ok (failMsg : Nat → Option String) (i : Nat) (acc : List Nat)
    (db : DB) (raw : RawStudent) (rest : List RawStudent) (u : String) (c y : Int)
    (s : Student)
    (hp : parseItem raw = some (u, c, y)) (hf : findStudent db u = some s)
    (hm : failMsg i = none) :
    promoteLoop failMsg i acc db (raw :: rest)
      = promoteLoop failMsg (i + 1)
          (if (insert_student_promotion db s.student_id c y).1 ≠ 0
            then acc ++ [(insert_student_promotion db s.student_id c y).1] else acc)
          (insert_student_promotion db s.student_id c y).2 rest := by
  simp [promoteLoop, hp, hf, hm]

/-- The database state a loop result carries, whether it ended early or
ran to completion. -/
def loopDB : Except (PromoteResponse × DB) (List Nat × DB) → DB
  | .error (_, db) => db
  | .ok (_, db) => db

/-- Promotions are append-only: whatever the loop does, the promotions
table only grows. -/
lemma promoteLoop_db_mono (failMsg : Nat → Option String) :
    ∀ (items : List RawStudent) (i : Nat) (acc : List Nat) (db : DB),
    ∃ tl, (loopDB (promoteLoop failMsg i acc db items)).promotions = db.promotions ++ tl := by
  intro items
  induction items with
  | nil =>
    intro i acc db
    exact ⟨[], by simp [promoteLoop, loopDB]⟩
  | cons raw rest ih =>
    intro i acc db
    cases hp : parseItem raw with
    | none =>
      refine ⟨[], ?_⟩
      rw [promoteLoop_cons_badParse failMsg i acc db raw rest hp]
      simp [loopDB]
    | some t =>
      obtain ⟨u, c, y⟩ := t
      cases hf : findStudent db u with
      | none =>
        refine ⟨[], ?_⟩
        rw [promoteLoop_cons_noStudent failMsg i acc db raw rest u c y hp hf]
        simp [loopDB]
      | some s =>
        cases hm : failMsg i with
        | some m =>
          refine ⟨[], ?_⟩
          rw [promoteLoop_cons_fail failMsg i acc db raw rest u c y s m hp hf hm]
          simp [loopDB]
        | none =>
          obtain ⟨tl, htl⟩ := ih (i + 1)
            (if (insert_student_promotion db s.student_id c y).1 ≠ 0
              then acc ++ [(insert_student_promotion db s.student_id c y).1] else acc)
            (insert_student_promotion db s.student_id c y).2
          obtain ⟨r, hr⟩ := insert_promotions db s.student_id c y
          refine ⟨r :: tl, ?_⟩
          rw [promoteLoop_cons_ok failMsg i acc db raw rest u c y s hp hf hm, htl, hr]
          simp

/-- `promoteBatch` never removes a promotion record: the output state's
promotions extend the input state's. -/
lemma promoteBatch_db_mono (failMsg : Nat → Option String) (db : DB)
    (s? : Option (List RawStudent)) :
    ∃ tl, (promoteBatch failMsg db s?).2.promotions = db.promotions ++ tl := by
  cases s? with
  | none => exact ⟨[], by simp [promoteBatch]⟩
  | some l =>
    by_cases hl : l.isEmpty
    · exact ⟨[], by simp [promoteBatch, hl]⟩
    · obtain ⟨tl, htl⟩ := promoteLoop_db_mono failMsg l 0 [] db
      refine ⟨tl, ?_⟩
      cases hres : promoteLoop failMsg 0 [] db l with
      | error e =>
        obtain ⟨resp, db₂⟩ := e
        rw [hres] at htl
        simpa [promoteBatch, hl, hres, loopDB] using htl
      | ok p =>
        obtain ⟨ids, db₂⟩ := p
        rw [hres] at htl
        by_cases hids : ids.isEmpty <;>
          simpa [promoteBatch, hl, hres, hids, loopDB] using htl

/-- When every item of the batch parses and resolves and no insert
throws, the loop completes and appends one fresh id per item, in input
order: item `j` gets id `db.nextPromotionId + j`. -/
lemma promoteLoop_all_ok (failMsg : Nat → Option String) :
    ∀ (items : List RawStudent) (i : Nat) (acc : List Nat) (db : DB),
    (∀ j, j < items.length → failMsg (i + j) = none) →
    (∀ x ∈ items, ∃ u c y, parseItem x = some (u, c, y) ∧ (findStudent db u).isSome = true) →
    0 < db.nextPromotionId →
    ∃ db', promoteLoop failMsg i acc db items
      = .ok (acc ++ (List.range items.length).map (fun j => db.nextPromotionId + j), db') := by
  intro items
  induction items with
  | nil =>
    intro i acc db _ _ _
    exact ⟨db, by simp [promoteLoop]⟩
  | cons raw rest ih =>
    intro i acc db h1 h2 h3
    obtain ⟨u, c, y, hp, hs⟩ := h2 raw (List.mem_cons_self raw rest)
    obtain ⟨s, hfs⟩ := Option.isSome_iff_exists.mp hs
    have hm : failMsg i = none := by simpa using h1 0 (by simp)
    rw [promoteLoop_cons_ok failMsg i acc db raw rest u c y s hp hfs hm]
    have hne : (insert_student_promotion db s.student_id c y).1 ≠ 0 := by
      rw [insert_fst]; omega
    rw [if_pos hne, insert_fst]
    obtain ⟨db', hdb'⟩ := ih (i + 1) (acc ++ [db.nextPromotionId])
      (insert_student_promotion db s.student_id c y).2
      (fun j hj => by
        have h := h1 (j + 1) (by simpa using Nat.succ_lt_succ hj)
        rwa [show i + (j + 1) = i + 1 + j by omega] at h)
      (fun x hx => by
        obtain ⟨u', c', y', hp', hs'⟩ := h2 x (List.mem_cons_of_mem raw hx)
        exact ⟨u', c', y', hp', by rw [findStudent_insert_isSome]; exact hs'⟩)
      (by rw [insert_nextPromotionId]; omega)
    refine ⟨db', ?_⟩
    rw [hdb', insert_nextPromotionId]
    congr 1
    have hrange : (List.range (rest.length + 1)).map (fun j => db.nextPromotionId + j)
        = db.nextPromotionId
            :: (List.range rest.length).map (fun j => db.nextPromotionId + 1 + j) := by
      rw [List.range_succ_eq_map, List.map_cons, List.map_map]
      simp only [Nat.add_zero]
      have hfun : ((fun j => db.nextPromotionId + j) ∘ Nat.succ)
          = fun j => db.nextPromotionId + 1 + j := by
        funext j
        simp only [Function.comp]
        omega
      rw [hfun]
    rw [List.length_cons, hrange]
    simp

/-! ### Concrete fixtures used by counterexamples and witnesses -/

def alice : Student := ⟨1, "alice", 3, 1⟩

def carol : Student := ⟨3, "carol", 3, 1⟩

def db0 : DB := ⟨[alice, carol], [], 1, 0⟩

def itemA : RawStudent := ⟨some "alice", some "3", some "2"⟩

def itemB : RawStudent := ⟨some "bob", some "3", some "2"⟩

def itemC : RawStudent := ⟨some "carol", some "3", some "2"⟩

def malformedItem : RawStudent := ⟨some "carol", some "abc", some "2"⟩

def noFail : Nat → Option String := fun _ => none

def failAt0 : Nat → Option String := fun i => if i = 0 then some "boom" else none

def failAt1 : Nat → Option String := fun i => if i = 1 then some "disk full" else none

/-! ### Claims -/

/-- C1 counterexample: in a batch of 3 items whose second username
("bob") is unknown, the handler does NOT record a per-item Failure and
continue — it aborts the whole call with a 404 response, having applied
only the first item (exactly one promotion record exists afterwards),
so there are no "2 Success, 1 Failure" outcomes and no successCount. -/
theorem unknown_username_aborts_batch_cex :
    (promoteBatch noFail db0 (some [itemA, itemB, itemC])).1
        = .notFound "⚠️ No student found with username: bob"
      ∧ ((promoteBatch noFail db0 (some [itemA, itemB, itemC])).2).promotions.length = 1 :=
  ⟨rfl, rfl⟩

/-- C1 amended: when an item's username does not resolve in the
students table, POST /promotions aborts immediately with a 404 naming
that username; earlier items remain applied (the returned state is the
state after the preceding inserts) and later items are never
processed. -/
theorem unknown_username_aborts_batch (failMsg : Nat → Option String) (db : DB)
    (a b c : RawStudent) (ua ub : String) (ca ya cb yb : Int) (sa : Student)
    (hpa : parseItem a = some (ua, ca, ya))
    (hsa : findStudent db ua = some sa)
    (hf0 : failMsg 0 = none)
    (hpb : parseItem b = some (ub, cb, yb))
    (hsb : findStudent db ub = none) :
    promoteBatch failMsg db (some [a, b, c])
      = (.notFound ("⚠️ No student found with username: " ++ ub),
         (insert_student_promotion db sa.student_id ca ya).2) := by
  have hsb' : findStudent (insert_student_promotion db sa.student_id ca ya).2 ub = none :=
    (findStudent_insert_none db sa.student_id ca ya ub).mpr hsb
  have hloop : promoteLoop failMsg 0 [] db [a, b, c]
      = .error (.notFound ("⚠️ No student found with username: " ++ ub),
          (insert_student_promotion db sa.student_id ca ya).2) := by
    rw [promoteLoop_cons_ok failMsg 0 [] db a [b, c] ua ca ya sa hpa hsa hf0]
    rw [promoteLoop_cons_noStudent failMsg 1 _ _ b [c] ub cb yb hpb hsb']
  simp [promoteBatch, hloop]

/-- C1 amended, witness instance. -/
theorem unknown_username_aborts_batch_wit :
    promoteBatch noFail db0 (some [itemA, itemB, itemC])
      = (.notFound ("⚠️ No student found with username: " ++ "bob"),
         (insert_student_promotion db0 alice.student_id 3 2).2) :=
  unknown_username_aborts_batch noFail db0 itemA itemB itemC "alice" "bob" 3 2 3 2 alice
    rfl rfl rfl rfl rfl

/-- C2 counterexample: a non-empty batch whose single item carries a
well-formed but unknown username produces a 404 error response carrying
no per-item outcomes at all (and leaves the state untouched), so the
result does not contain one outcome per input item and there are no
success/failure counts. -/
theorem batch_result_not_itemized_cex :
    promoteBatch noFail db0 (some [itemB])
      = (.notFound "⚠️ No student found with username: bob", db0) :=
  rfl

/-- C2 amended: only when every item of a non-empty batch parses,
resolves, and inserts without error does the call return a 201-created
response, and then it carries exactly one promotion id per input item,
in input order — item `j` receives id `db.nextPromotionId + j`.  Any
failing item instead aborts the whole call with an error response that
carries no per-item outcomes. -/
theorem all_success_batch_itemized (failMsg : Nat → Option String) (db : DB)
    (items : List RawStudent)
    (hne : items ≠ [])
    (hf : ∀ j, failMsg j = none)
    (h : ∀ x ∈ items, ∃ u c y, parseItem x = some (u, c, y) ∧ (findStudent db u).isSome = true)
    (h1 : 0 < db.nextPromotionId) :
    (promoteBatch failMsg db (some items)).1
      = .created ("✅ " ++ toString items.length ++ " student(s) promoted successfully!")
          ((List.range items.length).map (fun j => db.nextPromotionId + j)) := by
  obtain ⟨db', hdb'⟩ := promoteLoop_all_ok failMsg items 0 [] db (fun j _ => hf (0 + j)) h h1
  have hempty_false : items.isEmpty = false := by
    cases items with
    | nil => exact absurd rfl hne
    | cons a l => rfl
  have hnonempty : (((List.range items.length).map (fun j => db.nextPromotionId + j))).isEmpty
      = false := by
    cases items with
    | nil => exact absurd rfl hne
    | cons a l => simp [List.isEmpty_iff, List.range_eq_nil]
  simp [promoteBatch, hempty_false, hdb', hnonempty]

/-- C2 amended, witness instance. -/
theorem all_success_batch_itemized_wit :
    (promoteBatch noFail db0 (some [itemA, itemC])).1
      = .created ("✅ " ++ toString ([itemA, itemC].length) ++ " student(s) promoted successfully!")
          ((List.range ([itemA, itemC].length)).map (fun j => db0.nextPromotionId + j)) :=
  all_success_batch_itemized noFail db0 [itemA, itemC] (by simp) (fun _ => rfl)
    (by
      intro x hx
      simp only [List.mem_cons, List.not_mem_nil, or_false] at hx
      rcases hx with rfl | rfl
      · exact ⟨"alice", 3, 2, rfl, rfl⟩
      · exact ⟨"carol", 3, 2, rfl, rfl⟩)
    (by decide)

/-- C3 counterexample: a batch whose second item has an unparseable
courseId ("abc") is rejected with the 400 validation message — but only
after the first item was fully applied: one promotion record was
created by the call, so validation is not an all-or-nothing gate that
runs before any per-item work. -/
theorem malformed_item_not_rejected_upfront_cex :
    (promoteBatch noFail db0 (some [itemA, malformedItem])).1
        = .badRequest "⚠️ Missing or invalid course/year selection."
      ∧ ((promoteBatch noFail db0 (some [itemA, malformedItem])).2).promotions.length = 1 :=
  ⟨rfl, rfl⟩

/-- C3 amended: only the empty-or-missing-batch check runs before any
per-item work (it rejects with 400 and leaves the state untouched);
per-item field validation happens inside the loop, item by item, so a
malformed item following a valid one is rejected with 400 only after
the earlier item has been applied. -/
theorem validation_gate_shape :
    (∀ (failMsg : Nat → Option String) (db : DB),
      promoteBatch failMsg db none
        = (.badRequest "⚠️ At least one student must be provided.", db))
    ∧ (∀ (failMsg : Nat → Option String) (db : DB),
      promoteBatch failMsg db (some [])
        = (.badRequest "⚠️ At least one student must be provided.", db))
    ∧ (∀ (failMsg : Nat → Option String) (db : DB) (a b : RawStudent)
        (ua : String) (ca ya : Int) (sa : Student),
      parseItem a = some (ua, ca, ya) →
      findStudent db ua = some sa →
      failMsg 0 = none →
      parseItem b = none →
      promoteBatch failMsg db (some [a, b])
        = (.badRequest "⚠️ Missing or invalid course/year selection.",
           (insert_student_promotion db sa.student_id ca ya).2)) := by
  refine ⟨fun failMsg db => rfl, fun failMsg db => rfl, ?_⟩
  intro failMsg db a b ua ca ya sa hpa hsa hf0 hpb
  have hloop : promoteLoop failMsg 0 [] db [a, b]
      = .error (.badRequest "⚠️ Missing or invalid course/year selection.",
          (insert_student_promotion db sa.student_id ca ya).2) := by
    rw [promoteLoop_cons_ok failMsg 0 [] db a [b] ua ca ya sa hpa hsa hf0]
    rw [promoteLoop_cons_badParse failMsg 1 _ _ b [] hpb]
  simp [promoteBatch, hloop]

/-- C3 amended, witness instance. -/
theorem validation_gate_shape_wit :
    promoteBatch noFail db0 none
        = (.badRequest "⚠️ At least one student must be provided.", db0)
      ∧ promoteBatch noFail db0 (some [itemA, malformedItem])
        = (.badRequest "⚠️ Missing or invalid course/year selection.",
           (insert_student_promotion db0 alice.student_id 3 2).2) :=
  ⟨validation_gate_shape.1 noFail db0,
   validation_gate_shape.2.2 noFail db0 itemA malformedItem "alice" 3 2 alice
     rfl rfl rfl rfl⟩

/-- C4 counterexample: with an environment in which the insert for the
first item throws "boom", a two-item batch of resolvable usernames
returns a 500 server-error response: the persistence failure is not
captured as that item's Failure outcome, and the sibling item is never
processed (the state is unchanged). -/
theorem persistence_failure_aborts_cex :
    promoteBatch failAt0 db0 (some [itemA, itemC]) = (.serverError "boom", db0) :=
  rfl

/-- C4 amended: past the initial empty-batch gate the call can still
end in a 500: if the insert for an item throws, promoteBatch returns a
server-error response carrying the thrown message, the failing item is
not recorded as a per-item Failure, and sibling items after it are not
processed. -/
theorem persistence_failure_aborts (failMsg : Nat → Option String) (db : DB)
    (a b : RawStudent) (ua : String) (ca ya : Int) (sa : Student) (m : String)
    (hpa : parseItem a = some (ua, ca, ya))
    (hsa : findStudent db ua = some sa)
    (hf0 : failMsg 0 = some m) :
    promoteBatch failMsg db (some [a, b]) = (.serverError m, db) := by
  have hloop : promoteLoop failMsg 0 [] db [a, b] = .error (.serverError m, db) :=
    promoteLoop_cons_fail failMsg 0 [] db a [b] ua ca ya sa m hpa hsa hf0
  simp [promoteBatch, hloop]

/-- C4 amended, witness instance. -/
theorem persistence_failure_aborts_wit :
    promoteBatch failAt0 db0 (some [itemA, itemC]) = (.serverError "boom", db0) :=
  persistence_failure_aborts failAt0 db0 itemA itemC "alice" 3 2 alice "boom" rfl rfl rfl

/-- C5: when POST /promotions aborts mid-batch — 404 because an item's
username is unknown, or 500 because an item's insert throws — the
promotions already applied for the earlier items are kept (the
promotions table only ever grows, and the returned state is exactly the
state after the successful prefix), while the promotion ids collected so
far are discarded: the 404/500 responses carry only a message, never a
promotionIds list. -/
theorem abort_keeps_prior_promotions :
    (∀ (failMsg : Nat → Option String) (db : DB) (s? : Option (List RawStudent)),
      ∃ tl, (promoteBatch failMsg db s?).2.promotions = db.promotions ++ tl)
    ∧ (∀ (failMsg : Nat → Option String) (db : DB) (a b : RawStudent)
        (ua ub : String) (ca ya cb yb : Int) (sa : Student),
      parseItem a = some (ua, ca, ya) →
      findStudent db ua = some sa →
      failMsg 0 = none →
      parseItem b = some (ub, cb, yb) →
      findStudent db ub = none →
      promoteBatch failMsg db (some [a, b])
        = (.notFound ("⚠️ No student found with username: " ++ ub),
           (insert_student_promotion db sa.student_id ca ya).2))
    ∧ (∀ (failMsg : Nat → Option String) (db : DB) (a b : RawStudent)
        (ua ub : String) (ca ya cb yb : Int) (sa : Student) (m : String),
      parseItem a = some (ua, ca, ya) →
      findStudent db ua = some sa →
      failMsg 0 = none →
      parseItem b = some (ub, cb, yb) →
      (findStudent db ub).isSome = true →
      failMsg 1 = some m →
      promoteBatch failMsg db (some [a, b])
        = (.serverError m,
           (insert_student_promotion db sa.student_id ca ya).2)) := by
  refine ⟨promoteBatch_db_mono, ?_, ?_⟩
  · intro failMsg db a b ua ub ca ya cb yb sa hpa hsa hf0 hpb hsb
    have hsb' : findStudent (insert_student_promotion db sa.student_id ca ya).2 ub = none :=
      (findStudent_insert_none db sa.student_id ca ya ub).mpr hsb
    have hloop : promoteLoop failMsg 0 [] db [a, b]
        = .error (.notFound ("⚠️ No student found with username: " ++ ub),
            (insert_student_promotion db sa.student_id ca ya).2) := by
      rw [promoteLoop_cons_ok failMsg 0 [] db a [b] ua ca ya sa hpa hsa hf0]
      rw [promoteLoop_cons_noStudent failMsg 1 _ _ b [] ub cb yb hpb hsb']
    simp [promoteBatch, hloop]
  · intro failMsg db a b ua ub ca ya cb yb sa m hpa hsa hf0 hpb hsb hf1
    have hsb2 : (findStudent (insert_student_promotion db sa.student_id ca ya).2 ub).isSome
        = true := by
      rw [findStudent_insert_isSome]
      exact hsb
    obtain ⟨sb, hsb'⟩ := Option.isSome_iff_exists.mp hsb2
    have hloop : promoteLoop failMsg 0 [] db [a, b]
        = .error (.serverError m, (insert_student_promotion db sa.student_id ca ya).2) := by
      rw [promoteLoop_cons_ok failMsg 0 [] db a [b] ua ca ya sa hpa hsa hf0]
      rw [promoteLoop_cons_fail failMsg 1 _ _ b [] ub cb yb sb m hpb hsb' hf1]
    simp [promoteBatch, hloop]

/-- C5 witness instance. -/
theorem abort_keeps_prior_promotions_wit :
    promoteBatch noFail db0 (some [itemA, itemB])
        = (.notFound ("⚠️ No student found with username: " ++ "bob"),
           (insert_student_promotion db0 alice.student_id 3 2).2)
      ∧ promoteBatch failAt1 db0 (some [itemA, itemC])
        = (.serverError "disk full",
           (insert_student_promotion db0 alice.student_id 3 2).2) :=
  ⟨abort_keeps_prior_promotions.2.1 noFail db0 itemA itemB "alice" "bob" 3 2 3 2 alice
     rfl rfl rfl rfl rfl,
   abort_keeps_prior_promotions.2.2 failAt1 db0 itemA itemC "alice" "carol" 3 2 3 2 alice
     "disk full" rfl rfl rfl rfl rfl rfl⟩

def dbAliceOnly : DB := ⟨[alice], [], 1, 0⟩

def recA : PromotionRecord := ⟨1, 1, 3, 1, 2, 5⟩

def recB : PromotionRecord := ⟨2, 1, 3, 2, 3, 9⟩

def dbHist : DB := ⟨[alice], [recA, recB], 3, 10⟩

/-- C6 counterexample: "alice" is present in the students table but has
never been promoted, yet GET /promotion-history/alice answers 404
rather than an empty 200 list: the route never consults the Student
Directory and conflates "unknown student" with "no history". -/
theorem never_promoted_student_404_cex :
    getPromotionHistory dbAliceOnly "alice"
        = .notFound "⚠️ No promotion history found for this student."
      ∧ alice ∈ dbAliceOnly.students ∧ alice.username = "alice" :=
  ⟨rfl, by decide, rfl⟩

/-- C6 amended: getPromotionHistory answers 404 exactly when the
history query yields zero rows for the username — whether the username
is unknown or the student simply has never been promoted; no separate
Student-Directory check distinguishes the two cases. -/
theorem history_404_iff_no_rows (db : DB) (u : String) :
    getPromotionHistory db u = .notFound "⚠️ No promotion history found for this student."
      ↔ promotion_history_rows db u = [] := by
  simp only [getPromotionHistory]
  have hperm := List.perm_insertionSort createdDesc (promotion_history_rows db u)
  by_cases h : (List.insertionSort createdDesc (promotion_history_rows db u)).isEmpty = true
  · rw [if_pos h]
    constructor
    · intro _
      have h0 : List.insertionSort createdDesc (promotion_history_rows db u) = [] :=
        List.isEmpty_iff.mp h
      have hlen := hperm.length_eq
      rw [h0] at hlen
      exact List.length_eq_zero.mp hlen.symm
    · intro _
      rfl
  · rw [if_neg h]
    constructor
    · intro hEq
      exact absurd hEq (by simp)
    · intro hnil
      refine absurd ?_ h
      rw [hnil]
      rfl

/-- C6 amended, witness instance. -/
theorem history_404_iff_no_rows_wit :
    getPromotionHistory dbAliceOnly "bob"
        = .notFound "⚠️ No promotion history found for this student."
      ↔ promotion_history_rows dbAliceOnly "bob" = [] :=
  history_404_iff_no_rows dbAliceOnly "bob"

/-- C7: whenever GET /promotion-history answers 200, the returned list
contains exactly the student's promotion records (a permutation of the
rows selected for the username) sorted by `created_at` descending; and
the route is a pure function of the students and promotions tables, so
re-running it with no intervening promotions yields identical output. -/
theorem history_sorted_and_stable :
    (∀ (db : DB) (u : String) (rows : List PromotionRecord),
      getPromotionHistory db u = .ok rows →
        rows.Perm (promotion_history_rows db u) ∧ rows.Sorted createdDesc)
    ∧ (∀ (db1 db2 : DB) (u : String),
      db1.students = db2.students → db1.promotions = db2.promotions →
      getPromotionHistory db1 u = getPromotionHistory db2 u) := by
  constructor
  · intro db u rows hok
    simp only [getPromotionHistory] at hok
    by_cases h : (List.insertionSort createdDesc (promotion_history_rows db u)).isEmpty = true
    · rw [if_pos h] at hok
      exact absurd hok (by simp)
    · rw [if_neg h] at hok
      have hrows : List.insertionSort createdDesc (promotion_history_rows db u) = rows := by
        injection hok
      rw [← hrows]
      exact ⟨List.perm_insertionSort createdDesc _, List.sorted_insertionSort createdDesc _⟩
  · intro db1 db2 u h1 h2
    have hrows : promotion_history_rows db1 u = promotion_history_rows db2 u := by
      simp only [promotion_history_rows]
      rw [h1, h2]
    simp only [getPromotionHistory]
    rw [hrows]

/-- C7 witness instance: a history of two records stored out of order
comes back newest-first. -/
theorem history_sorted_and_stable_wit :
    ([recB, recA].Perm (promotion_history_rows dbHist "alice")
      ∧ [recB, recA].Sorted createdDesc)
    ∧ getPromotionHistory dbHist "alice" = getPromotionHistory dbHist "alice" :=
  ⟨history_sorted_and_stable.1 dbHist "alice" [recB, recA] rfl,
   history_sorted_and_stable.2 dbHist dbHist "alice" rfl rfl⟩

/-- Whether a GET /promotions/:promotionId response is the 200 case. -/
def ByIdResponse.isOk : ByIdResponse → Bool
  | .ok _ => true
  | .notFound _ => false

/-- The promotion record freshly inserted for a not-yet-used id is what
the point lookup finds afterwards, and it carries the inserted course
and target year. -/
lemma get_promotion_by_id_insert (db : DB) (sid : Nat) (c y : Int)
    (hfresh : ∀ r ∈ db.promotions, r.promotion_id ≠ db.nextPromotionId) :
    get_promotion_by_id (insert_student_promotion db sid c y).2 db.nextPromotionId
      = some
        { promotion_id := db.nextPromotionId, student_id := sid, course_id := c
          from_year :=
            match db.students.find? (fun s => s.student_id == sid) with
            | some s => s.academic_course_year_id
            | none => 0
          to_year := y, created_at := db.now } := by
  simp only [get_promotion_by_id]
  have hprom : (insert_student_promotion db sid c y).2.promotions
      = db.promotions ++
        [{ promotion_id := db.nextPromotionId, student_id := sid, course_id := c
           from_year :=
             match db.students.find? (fun s => s.student_id == sid) with
             | some s => s.academic_course_year_id
             | none => 0
           to_year := y, created_at := db.now }] := rfl
  rw [hprom, List.find?_append]
  have h1 : List.find? (fun r => r.promotion_id == db.nextPromotionId) db.promotions
      = none :=
    List.find?_eq_none.mpr (fun x hx => by simpa using hfresh x hx)
  rw [h1]
  simp

/-- C8: a successful single-item promoteBatch returns the fresh id
`db.nextPromotionId`, and looking that id up afterwards succeeds and
yields a record whose `to_year` is the requested target year and whose
`course_id` is the requested course. -/
theorem single_item_roundtrip (failMsg : Nat → Option String) (db : DB)
    (raw : RawStudent) (u : String) (c y : Int) (s : Student)
    (hp : parseItem raw = some (u, c, y))
    (hs : findStudent db u = some s)
    (hf : failMsg 0 = none)
    (hpos : 0 < db.nextPromotionId)
    (hfresh : ∀ r ∈ db.promotions, r.promotion_id ≠ db.nextPromotionId) :
    promoteBatch failMsg db (some [raw])
        = (.created ("✅ " ++ toString (1 : Nat) ++ " student(s) promoted successfully!")
            [db.nextPromotionId],
           (insert_student_promotion db s.student_id c y).2)
      ∧ (getPromotionById (insert_student_promotion db s.student_id c y).2
          db.nextPromotionId).isOk = true
      ∧ (∀ rec, getPromotionById (insert_student_promotion db s.student_id c y).2
          db.nextPromotionId = .ok rec → rec.to_year = y ∧ rec.course_id = c) := by
  have hne : (insert_student_promotion db s.student_id c y).1 ≠ 0 := by
    rw [insert_fst]
    omega
  have hloop : promoteLoop failMsg 0 [] db [raw]
      = .ok ([db.nextPromotionId], (insert_student_promotion db s.student_id c y).2) := by
    rw [promoteLoop_cons_ok failMsg 0 [] db raw [] u c y s hp hs hf, promoteLoop_nil,
      if_pos hne, insert_fst]
    simp
  have hfind := get_promotion_by_id_insert db s.student_id c y hfresh
  refine ⟨by simp [promoteBatch, hloop], ?_, ?_⟩
  · simp [getPromotionById, hfind, ByIdResponse.isOk]
  · intro rec h
    simp only [getPromotionById, hfind] at h
    injection h with h'
    rw [← h']
    exact ⟨rfl, rfl⟩

/-- C8 witness instance. -/
theorem single_item_roundtrip_wit :
    promoteBatch noFail db0 (some [itemA])
        = (.created ("✅ " ++ toString (1 : Nat) ++ " student(s) promoted successfully!")
            [db0.nextPromotionId],
           (insert_student_promotion db0 alice.student_id 3 2).2)
      ∧ (getPromotionById (insert_student_promotion db0 alice.student_id 3 2).2
          db0.nextPromotionId).isOk = true
      ∧ ((⟨1, 1, 3, 1, 2, 0⟩ : PromotionRecord).to_year = 2
          ∧ (⟨1, 1, 3, 1, 2, 0⟩ : PromotionRecord).course_id = 3) := by
  have h := single_item_roundtrip noFail db0 itemA "alice" 3 2 alice rfl rfl rfl
    (by decide) (by decide)
  exact ⟨h.1, h.2.1, h.2.2 ⟨1, 1, 3, 1, 2, 0⟩ (by decide)⟩

/-- C9: GET /promotions/:promotionId answers 404 exactly when no stored
promotion record carries the requested id, and whenever it answers 200
the returned record is a stored record carrying exactly that id. -/
theorem by_id_lookup (db : DB) (id : Nat) :
    (getPromotionById db id = .notFound "Promotion not found"
        ↔ ∀ r ∈ db.promotions, r.promotion_id ≠ id)
    ∧ (∀ r, getPromotionById db id = .ok r → r ∈ db.promotions ∧ r.promotion_id = id) := by
  constructor
  · cases hfind : get_promotion_by_id db id with
    | none =>
      simp only [getPromotionById, hfind]
      simp only [get_promotion_by_id] at hfind
      constructor
      · intro _ r hr
        simpa using List.find?_eq_none.mp hfind r hr
      · intro _
        trivial
    | some r0 =>
      simp only [getPromotionById, hfind]
      simp only [get_promotion_by_id] at hfind
      constructor
      · intro hEq
        exact absurd hEq (by simp)
      · intro hall
        exact absurd (by simpa using List.find?_some hfind)
          (hall r0 (List.mem_of_find?_eq_some hfind))
  · intro r h
    cases hfind : get_promotion_by_id db id with
    | none =>
      simp [getPromotionById, hfind] at h
    | some r0 =>
      simp only [getPromotionById, hfind] at h
      injection h with h'
      subst h'
      simp only [get_promotion_by_id] at hfind
      exact ⟨List.mem_of_find?_eq_some hfind, by simpa using List.find?_some hfind⟩

/-- C9 witness instance. -/
theorem by_id_lookup_wit :
    getPromotionById dbHist 5 = .notFound "Promotion not found"
      ∧ recA ∈ dbHist.promotions ∧ recA.promotion_id = 1 :=
  ⟨(by_id_lookup dbHist 5).1.mpr (by decide),
   (by_id_lookup dbHist 1).2 recA (by decide)⟩

/-- C10: an item is accepted by the per-item validation exactly when
its username is present and non-empty and both `courseId` and
`academicCourseYearId` survive `parseInt(·, 10)`; strings with a
leading integer such as "2abc" or "3.9" are accepted as the truncated
integer, and only NaN parses (like "abc") are rejected. -/
theorem parse_coercion :
    (∀ (raw : RawStudent) (u : String) (c y : Int),
      parseItem raw = some (u, c, y)
        ↔ (raw.username = some u ∧ u ≠ ""
            ∧ parseIntJS raw.courseId = some c
            ∧ parseIntJS raw.academicCourseYearId = some y))
    ∧ parseIntJS (some "2abc") = some 2
    ∧ parseIntJS (some "3.9") = some 3
    ∧ parseIntJS (some "abc") = none
    ∧ parseItem ⟨some "B322001", some "2abc", some "3.9"⟩ = some ("B322001", 2, 3) := by
  refine ⟨?_, rfl, rfl, rfl, rfl⟩
  intro raw u c y
  cases huname : raw.username with
  | none => simp [parseItem, huname]
  | some u' =>
    cases hc : parseIntJS raw.courseId with
    | none => simp [parseItem, huname, hc]
    | some c' =>
      cases hy : parseIntJS raw.academicCourseYearId with
      | none => simp [parseItem, huname, hc, hy]
      | some y' =>
        simp only [parseItem, huname, hc, hy]
        by_cases hu : u' = ""
        · subst hu
          constructor
          · intro h
            exact absurd h (by simp)
          · rintro ⟨h1, h2, -, -⟩
            exact absurd (Option.some.inj h1).symm h2
        · rw [if_neg hu]
          constructor
          · intro h
            obtain ⟨e1, e2, e3⟩ : u' = u ∧ c' = c ∧ y' = y := by
              simpa [Prod.ext_iff] using Option.some.inj h
            subst e1
            subst e2
            subst e3
            exact ⟨rfl, hu, rfl, rfl⟩
          · rintro ⟨h1, h2, h3, h4⟩
            rw [Option.some.inj h1, Option.some.inj h3, Option.some.inj h4]

/-- C10 witness instance. -/
theorem parse_coercion_wit :
    (parseItem itemA = some ("alice", 3, 2)
      ↔ (itemA.username = some "alice" ∧ "alice" ≠ ""
          ∧ parseIntJS itemA.courseId = some 3
          ∧ parseIntJS itemA.academicCourseYearId = some 2))
    ∧ parseIntJS (some "2abc") = some 2 :=
  ⟨parse_coercion.1 itemA "alice" 3 2, parse_coercion.2.1⟩

end CollegeMgmt
